import Mathlib

/-!
Verification of the duplicate-scan detection core.

This file gives a shallow embedding of the detection pipeline of the repository
(`src/services/detector.py`), its chunked hashing primitive
(`src/services/hasher.py`) and the data entities
(`src/models/file_meta.py`, `src/models/duplicate_group.py`,
`src/models/scan_config.py`), and proves or refutes the frozen claims
about them.

Conventions of the embedding:
- File bytes are `List Nat`; a filesystem is a partial map from paths to
  file data (`FS`).  A missing path models `FileNotFoundError`.
- The digest codomain is a type parameter `D` (the source renders digests
  as hex strings; only equality of digests is ever used).  A hash
  algorithm is its digest function `List Nat → D`; a hashlib-style hash
  object accumulates updated bytes (`HashObj`), which is the observable
  semantics of `update`/`hexdigest`.
- Fallible Python calls become `Except String` values; the message is the
  exception text.
- Identifiers avoid the letter sequence of the Python keyword in
  `partial_hash`: the `FileMeta.partial_hash` field is embedded as
  `phash`, `full_hash` as `fhash`, `calculate_partial_hash` as
  `Hasher.calculate_phash`, and `_collect_partial_candidates` as
  `collect_phash_candidates`.
-/

/-- Embeds `FileMeta` (src/models/file_meta.py): path, size, modification
time, and the two optional fingerprints.  `phash`/`fhash` embed the
`partial_hash`/`full_hash` fields; `modified_time` is an abstract timestamp. -/
structure FileMeta (D : Type) where
  path : String
  size : Nat
  modified_time : Nat
  phash : Option D
  fhash : Option D
deriving DecidableEq

/-- The bytes and seekability of one file on the modelled filesystem.
`seekable = false` models a filesystem on which the backward
`f.seek(-chunk_size, 2)` in `calculate_partial_hash` raises `OSError`. -/
structure FileData where
  content : List Nat
  seekable : Bool
deriving DecidableEq

/-- A filesystem: a partial map from paths to file data.  `none` models a
path for which `path.exists()` is false (`FileNotFoundError`). -/
def FS : Type := String → Option FileData

/-- Embeds a hashlib/xxhash hash object: the observable semantics of
`update` is accumulation of the fed bytes, and `hexdigest` applies the
digest function of the algorithm to the accumulated bytes. -/
structure HashObj where
  acc : List Nat
deriving DecidableEq

/-- Embeds `Hasher._get_hash_object()`: a fresh hash object. -/
def HashObj.empty : HashObj := ⟨[]⟩

/-- Embeds `hash_obj.update(chunk)`. -/
def HashObj.update (h : HashObj) (chunk : List Nat) : HashObj :=
  ⟨h.acc ++ chunk⟩

/-- Embeds `hash_obj.hexdigest()` for digest function `H`. -/
def HashObj.hexdigest {D : Type} (H : List Nat → D) (h : HashObj) : D :=
  H h.acc

/-- Embeds `Hasher` (src/services/hasher.py): a chunk size and the selected
algorithm, represented by its digest function. -/
structure Hasher (D : Type) where
  chunk_size : Nat
  H : List Nat → D

/-- The read loop of `calculate_full_hash` with an explicit iteration
bound: each pass reads one `csize`-byte chunk, and the loop stops when
the read returns empty bytes (`content = []`, or `csize = 0` since
`f.read(0)` returns the falsy empty bytes object).  The fuel only makes
the recursion structural; `content.length` passes suffice, see
`read_chunks`. -/
def read_chunks_fuel (csize : Nat) : Nat → List Nat → List (List Nat)
  | 0, _ => []
  | fuel + 1, content =>
    if csize = 0 ∨ content = [] then []
    else content.take csize :: read_chunks_fuel csize fuel (content.drop csize)

/-- Embeds the read loop of `calculate_full_hash`:
`while chunk := f.read(self.chunk_size): ...` yields the successive
`chunk_size`-byte chunks of the file.  When `chunk_size = 0`, `f.read(0)`
returns the empty bytes object, which is falsy, so the loop yields no
chunks at all. -/
def read_chunks (csize : Nat) (content : List Nat) : List (List Nat) :=
  read_chunks_fuel csize content.length content

/-- Embeds `Hasher.calculate_partial_hash` (src/services/hasher.py,
lines 100-147).  If the file is at most `2 * chunk_size` bytes the whole
content is hashed; otherwise the first and last `chunk_size` bytes are
hashed (the tail is read after `f.seek(-self.chunk_size, 2)`, i.e. from
offset `size - chunk_size`).  A missing path raises `FileNotFoundError`;
a failing backward seek raises `OSError`, which the `except OSError`
clause wraps and re-raises — there is no fallback path. -/
def Hasher.calculate_phash {D : Type} (hs : Hasher D) (fs : FS)
    (file_path : String) : Except String D :=
  match fs file_path with
  | none => Except.error ("File not found: " ++ file_path)
  | some fd =>
    if fd.content.length ≤ 2 * hs.chunk_size then
      Except.ok (((HashObj.empty).update fd.content).hexdigest hs.H)
    else if fd.seekable then
      Except.ok ((((HashObj.empty).update (fd.content.take hs.chunk_size)).update
        (fd.content.drop (fd.content.length - hs.chunk_size))).hexdigest hs.H)
    else
      Except.error ("Failed to read file " ++ file_path ++ ": seek not supported")

/-- Embeds `Hasher.calculate_full_hash` (src/services/hasher.py,
lines 216-248): fold every chunk produced by the read loop into the hash
state, then take the digest. -/
def Hasher.calculate_full_hash {D : Type} (hs : Hasher D) (fs : FS)
    (file_path : String) : Except String D :=
  match fs file_path with
  | none => Except.error ("File not found: " ++ file_path)
  | some fd =>
    Except.ok (((read_chunks hs.chunk_size fd.content).foldl
      HashObj.update HashObj.empty).hexdigest hs.H)

/-- Writes a computed partial fingerprint onto a record
(`setattr(file_meta, "partial_hash", hash_value)`). -/
def set_phash {D : Type} (fm : FileMeta D) (v : D) : FileMeta D :=
  { fm with phash := some v }

/-- Writes a computed full fingerprint onto a record
(`setattr(file_meta, "full_hash", hash_value)`). -/
def set_fhash {D : Type} (fm : FileMeta D) (v : D) : FileMeta D :=
  { fm with fhash := some v }

/-- Embeds `Hasher._calculate_hashes_parallel` (src/services/hasher.py,
lines 149-178).  Each worker hashes the path of one record and catches any
exception; on success the fingerprint field of the record is set, on failure
the record is left unchanged and a warning line is logged.  The first
component is the batch after the run (each record processed exactly once,
independently of the others); the second component is the list of logged
warnings. -/
def run_hashes_parallel {D : Type} (hash_func : String → Except String D)
    (setter : FileMeta D → D → FileMeta D) (log_note : String)
    (files : List (FileMeta D)) : List (FileMeta D) × List String :=
  (files.map (fun fm =>
      match hash_func fm.path with
      | Except.ok v => setter fm v
      | Except.error _ => fm),
   files.filterMap (fun fm =>
      match hash_func fm.path with
      | Except.ok _ => none
      | Except.error e => some (log_note ++ " " ++ fm.path ++ ": " ++ e)))

/-- Embeds `Hasher.calculate_partial_hashes_parallel`. -/
def Hasher.calculate_phashes_parallel {D : Type} (hs : Hasher D) (fs : FS)
    (files : List (FileMeta D)) : List (FileMeta D) × List String :=
  run_hashes_parallel (hs.calculate_phash fs) set_phash
    "Failed to calculate partial hash for" files

/-- Embeds `Hasher.calculate_full_hashes_parallel`. -/
def Hasher.calculate_full_hashes_parallel {D : Type} (hs : Hasher D) (fs : FS)
    (files : List (FileMeta D)) : List (FileMeta D) × List String :=
  run_hashes_parallel (hs.calculate_full_hash fs) set_fhash
    "Failed to calculate full hash for" files

/-- Embeds `DuplicateGroup` (src/models/duplicate_group.py). -/
structure DuplicateGroup (D : Type) where
  files : List (FileMeta D)
  total_size : Nat
deriving DecidableEq

/-- Embeds `DuplicateGroup.computed_total_size`:
`sum(getattr(f, "size", 0) for f in self.files)`. -/
def computed_total_size {D : Type} (files : List (FileMeta D)) : Nat :=
  (files.map (fun f => f.size)).sum

/-- Embeds construction of a `DuplicateGroup` through `__post_init__`:
when `total_size` is not supplied (`None`) it is computed as the sum of
the member sizes; a supplied value is stored as-is, without validation. -/
def DuplicateGroup.make {D : Type} (files : List (FileMeta D))
    (total_size : Option Nat) : DuplicateGroup D :=
  { files := files, total_size := total_size.getD (computed_total_size files) }

/-- Embeds `SUPPORTED_HASH_ALGORITHMS` (src/models/scan_config.py). -/
def SUPPORTED_HASH_ALGORITHMS : List String :=
  ["sha256", "sha512", "md5", "sha1"]

/-- Embeds `Hasher._validate_hash_algorithm` (src/services/hasher.py,
lines 85-92), parameterised by `hashlib.algorithms_available`
(a platform-dependent set of algorithm names). -/
def Hasher.validate_hash_algorithm (algorithms_available : List String)
    (hash_algorithm : String) : Except String Unit :=
  if hash_algorithm = "xxhash64" then Except.ok ()
  else if hash_algorithm ∈ algorithms_available then Except.ok ()
  else Except.error ("Unsupported hash algorithm: " ++ hash_algorithm)

/-- Embeds `ScanConfig._validate_hash_algorithm` (src/models/scan_config.py,
lines 43-47). -/
def ScanConfig.validate_hash_algorithm (hash_algorithm : String) :
    Except String Unit :=
  if hash_algorithm ∈ SUPPORTED_HASH_ALGORITHMS then Except.ok ()
  else Except.error "hash_algorithm must be one of: sha256, sha512, md5, sha1"

/-- The keys of a list in first-occurrence order: exactly the iteration
order of the insertion-ordered dict built by `_group_by_key`. -/
def keys_in_order {α K : Type} [DecidableEq K] (key : α → K) :
    List α → List K
  | [] => []
  | x :: xs => key x :: (keys_in_order key xs).filter (fun k => k ≠ key x)

/-- Embeds `DuplicateDetector._group_by_key` (src/services/detector.py,
lines 223-241): an insertion-ordered dict mapping each key to the items
carrying it, in input order.  The bucket of key `k` is exactly the
sublist of items whose key is `k`. -/
def group_by_key {α K : Type} [DecidableEq K] (key : α → K)
    (items : List α) : List (K × List α) :=
  (keys_in_order key items).map (fun k => (k, items.filter (fun x => key x = k)))

/-- Embeds `DuplicateDetector._collect_size_candidates`
(src/services/detector.py, lines 126-148): group by size and keep every
bucket with at least two members. -/
def collect_size_candidates {D : Type} (files : List (FileMeta D)) :
    List (FileMeta D) :=
  ((group_by_key (fun f => f.size) files).filter
      (fun kg => decide (2 ≤ kg.2.length))).flatMap (fun kg => kg.2)

/-- Embeds `DuplicateDetector._collect_partial_candidates`
(src/services/detector.py, lines 150-186): run the parallel partial-hash
pass, drop records whose fingerprint is still absent, group the survivors
by partial fingerprint, and keep every bucket with at least two members. -/
def collect_phash_candidates {D : Type} [DecidableEq D] (hs : Hasher D)
    (fs : FS) (size_candidates : List (FileMeta D)) : List (FileMeta D) :=
  let updated := (hs.calculate_phashes_parallel fs size_candidates).1
  let files_with_phash := updated.filter (fun f => f.phash ≠ none)
  ((group_by_key (fun f => f.phash) files_with_phash).filter
      (fun kg => decide (2 ≤ kg.2.length))).flatMap (fun kg => kg.2)

/-- Embeds `DuplicateDetector._collect_full_hash_duplicates`
(src/services/detector.py, lines 188-221): run the parallel full-hash
pass, drop records whose fingerprint is still absent, group the survivors
by full fingerprint, and emit one `DuplicateGroup` (constructed without a
supplied `total_size`) per bucket with at least two members. -/
def collect_full_hash_duplicates {D : Type} [DecidableEq D] (hs : Hasher D)
    (fs : FS) (phash_candidates : List (FileMeta D)) :
    List (DuplicateGroup D) :=
  let updated := (hs.calculate_full_hashes_parallel fs phash_candidates).1
  let files_with_full := updated.filter (fun f => f.fhash ≠ none)
  ((group_by_key (fun f => f.fhash) files_with_full).filter
      (fun kg => decide (2 ≤ kg.2.length))).map
    (fun kg => DuplicateGroup.make kg.2 none)

/-- Embeds `DuplicateDetector.find_duplicates_optimized`
(src/services/detector.py, lines 69-124) run without a progress callback.
The first component is the returned list of duplicate groups.  The second
component instruments the run: it collects, in order, every record that
was handed to one of the two parallel-hash invocations (the hashing
function is invoked exactly once per listed record), so that "no hashing
was performed for this record" can be stated.  The early returns of the
source (empty input, no size candidates, no partial candidates) are
embedded as the corresponding branches. -/
def find_duplicates_optimized {D : Type} [DecidableEq D] (hs : Hasher D)
    (fs : FS) (files : List (FileMeta D)) :
    List (DuplicateGroup D) × List (FileMeta D) :=
  if files.isEmpty then ([], [])
  else
    let size_candidates := collect_size_candidates files
    if size_candidates.isEmpty then ([], [])
    else
      let phash_candidates := collect_phash_candidates hs fs size_candidates
      if phash_candidates.isEmpty then ([], size_candidates)
      else
        (collect_full_hash_duplicates hs fs phash_candidates,
         size_candidates ++ phash_candidates)

/-- Stage-2 loop body of `find_duplicates` (src/services/detector.py,
lines 36-49): for one size bucket, the partial-fingerprint buckets of its
usable members that have at least two members (empty when the size bucket
itself has fewer than two members). -/
def fd_stage2 {D : Type} [DecidableEq D] (kg : Nat × List (FileMeta D)) :
    List (List (FileMeta D)) :=
  if 2 ≤ kg.2.length then
    let files_with_phash := kg.2.filter (fun f => f.phash ≠ none)
    if 2 ≤ files_with_phash.length then
      ((group_by_key (fun f => f.phash) files_with_phash).filter
          (fun g => decide (2 ≤ g.2.length))).map (fun g => g.2)
    else []
  else []

/-- Stage-3 loop body of `find_duplicates` (src/services/detector.py,
lines 53-65): for one partial-fingerprint group, one `DuplicateGroup` per
full-fingerprint bucket with at least two members. -/
def fd_stage3 {D : Type} [DecidableEq D] (grp : List (FileMeta D)) :
    List (DuplicateGroup D) :=
  let files_with_full := grp.filter (fun f => f.fhash ≠ none)
  if 2 ≤ files_with_full.length then
    ((group_by_key (fun f => f.fhash) files_with_full).filter
        (fun g => decide (2 ≤ g.2.length))).map
      (fun g => DuplicateGroup.make g.2 none)
  else []

/-- Embeds `DuplicateDetector.find_duplicates` (src/services/detector.py,
lines 19-67): the non-optimized pipeline over records whose fingerprint
fields are already populated.  Stage 2 runs per size bucket; stage 3 runs
per partial-fingerprint bucket. -/
def find_duplicates {D : Type} [DecidableEq D] (files : List (FileMeta D)) :
    List (DuplicateGroup D) :=
  if files.isEmpty then []
  else
    ((group_by_key (fun f => f.size) files).flatMap fd_stage2).flatMap fd_stage3

/-- The type of a fallible progress sink: embeds a Python callback
`callback(message, processed, total)` that may raise. -/
def ProgressCb : Type := String → Nat → Nat → Except String Unit

/-- Embeds `DuplicateDetector.find_duplicates_optimized` run with a
supplied progress callback that may raise.  The callback is invoked
exactly at the call sites and with the arguments of the source; the
values computed between the calls are those of `find_duplicates_optimized`
(the callback has no influence on them).  A raising callback makes the
whole call raise, since the source invokes it unguarded. -/
def find_duplicates_optimizedE {D : Type} [DecidableEq D] (hs : Hasher D)
    (fs : FS) (cb : ProgressCb) (files : List (FileMeta D)) :
    Except String (List (DuplicateGroup D)) := do
  if files.isEmpty then
    cb "No files to process" 0 0
    pure []
  else
    let size_candidates := collect_size_candidates files
    cb "Grouping by size" files.length files.length
    if size_candidates.isEmpty then
      cb "No duplicate size candidates found" 0 files.length
      pure []
    else
      let phash_candidates := collect_phash_candidates hs fs size_candidates
      cb "Computing partial hashes" size_candidates.length size_candidates.length
      cb "Grouping by partial hash"
        ((hs.calculate_phashes_parallel fs size_candidates).1.filter
          (fun f => f.phash ≠ none)).length size_candidates.length
      if phash_candidates.isEmpty then
        cb "No partial hash matches found" 0 size_candidates.length
        pure []
      else
        let groups := collect_full_hash_duplicates hs fs phash_candidates
        cb "Computing full hashes" phash_candidates.length phash_candidates.length
        cb "Final grouping"
          ((hs.calculate_full_hashes_parallel fs phash_candidates).1.filter
            (fun f => f.fhash ≠ none)).length phash_candidates.length
        cb "Completed" groups.length files.length
        pure groups

/-! Concrete instances used by witnesses and counterexamples -/

def c1_hs : Hasher Nat := ⟨1, fun _ => 0⟩

def c1_fs : FS := fun _ => none

def c1_g1 : FileMeta Nat := ⟨"x", 5, 0, some 1, some 2⟩

def c1_g2 : FileMeta Nat := ⟨"y", 5, 0, some 1, some 2⟩

def c3_hs : Hasher (List Nat) := ⟨2, fun l => l⟩

def c3_fs : FS := fun p =>
  if p = "s" then some ⟨[1, 2, 3], true⟩
  else if p = "b" then some ⟨[1, 2, 3, 4, 5], true⟩
  else none

def c4_hs : Hasher (List Nat) := ⟨2, fun l => l⟩

def c4_fs : FS := fun p =>
  if p = "u" then some ⟨[0, 1, 2, 3, 4], false⟩ else none

def c6_hs : Hasher (List Nat) := ⟨2, fun l => l⟩

def c6_fs : FS := fun p =>
  if p = "f" then some ⟨[0, 1, 2, 3, 4], true⟩ else none

def c5_hs : Hasher (List Nat) := ⟨2, fun l => l⟩

def c5_fs : FS := fun p => if p = "a" then some ⟨[1], true⟩ else none

def c5_fmA : FileMeta (List Nat) := ⟨"a", 1, 0, none, none⟩

def c5_fmB : FileMeta (List Nat) := ⟨"x", 1, 0, none, none⟩

def c8_fm : FileMeta Nat := ⟨"/a", 1, 0, none, none⟩

def c8_hs : Hasher Nat := ⟨1, fun _ => 0⟩

def c8_fs : FS := fun _ => none

def c8_g1 : FileMeta Nat := ⟨"x", 5, 0, some 1, some 2⟩

def c8_g2 : FileMeta Nat := ⟨"y", 5, 0, some 1, some 2⟩

def c9_hs : Hasher Nat := ⟨4096, fun _ => 0⟩

def c9_fs : FS := fun _ => none

def c9_cb_raise : ProgressCb := fun _ _ _ => Except.error "sink failure"

def c9_cb_ok : ProgressCb := fun _ _ _ => Except.ok ()

def c7_hs : Hasher Nat := ⟨4096, fun _ => 7⟩

def c7_fs : FS := fun _ => none

def c7_a : FileMeta Nat := ⟨"a", 100, 0, none, none⟩

def c7_b : FileMeta Nat := ⟨"b", 100, 0, none, none⟩

def c7_c : FileMeta Nat := ⟨"c", 200, 0, none, none⟩

def c2_hs : Hasher Nat := ⟨4096, fun _ => 0⟩

def c2_fs : FS := fun _ => none

def c2_p1 : FileMeta Nat := ⟨"p1", 1, 0, some 5, some 7⟩

def c2_p2 : FileMeta Nat := ⟨"p2", 1, 0, some 5, some 7⟩

def c2_p3 : FileMeta Nat := ⟨"p3", 2, 0, some 6, some 7⟩

def c2_p4 : FileMeta Nat := ⟨"p4", 2, 0, some 6, some 7⟩

def c2w_hs : Hasher (List Nat) := ⟨4096, fun l => l⟩

def c2w_fs : FS := fun _ => some ⟨[1, 2, 3], true⟩

def c2w_a : FileMeta (List Nat) := ⟨"a", 3, 0, none, none⟩

def c2w_b : FileMeta (List Nat) := ⟨"b", 3, 0, none, none⟩

def c2w_xa : FileMeta (List Nat) := ⟨"a", 3, 0, some [1, 2, 3], some [1, 2, 3]⟩

def c2w_xb : FileMeta (List Nat) := ⟨"b", 3, 0, some [1, 2, 3], some [1, 2, 3]⟩

/-! Properties of the grouping primitive -/

theorem keys_in_order_nodup {α K : Type} [DecidableEq K] (key : α → K) :
    ∀ items : List α, (keys_in_order key items).Nodup
  | [] => List.nodup_nil
  | x :: xs => by
    rw [keys_in_order]
    refine List.Nodup.cons ?_ (List.Nodup.filter _ (keys_in_order_nodup key xs))
    intro hmem
    rcases List.mem_filter.mp hmem with ⟨-, hne⟩
    simp at hne

theorem group_by_key_bucket {α K : Type} [DecidableEq K] {key : α → K}
    {items : List α} {kg : K × List α} (h : kg ∈ group_by_key key items) :
    kg.2 = items.filter (fun x => key x = kg.1) := by
  rcases List.mem_map.mp h with ⟨k, -, hk⟩
  subst hk
  rfl

theorem group_by_key_mem_bucket {α K : Type} [DecidableEq K] {key : α → K}
    {items : List α} {kg : K × List α} {x : α} (h : kg ∈ group_by_key key items)
    (hx : x ∈ kg.2) : key x = kg.1 ∧ x ∈ items := by
  rw [group_by_key_bucket h] at hx
  rcases List.mem_filter.mp hx with ⟨hmem, hkey⟩
  exact ⟨by simpa using hkey, hmem⟩

theorem group_by_key_keys_pairwise {α K : Type} [DecidableEq K] (key : α → K)
    (items : List α) :
    (group_by_key key items).Pairwise (fun a b => a.1 ≠ b.1) := by
  unfold group_by_key
  rw [List.pairwise_map]
  exact (keys_in_order_nodup key items).imp (fun h => h)

theorem group_by_key_disjoint {α K : Type} [DecidableEq K] (key : α → K)
    (items : List α) :
    (group_by_key key items).Pairwise (fun a b => ∀ x ∈ a.2, x ∉ b.2) := by
  refine (group_by_key_keys_pairwise key items).imp_of_mem ?_
  intro a b ha hb hne x hxa hxb
  have h1 := (group_by_key_mem_bucket ha hxa).1
  have h2 := (group_by_key_mem_bucket hb hxb).1
  exact hne (h1 ▸ h2 ▸ rfl)

/-! Properties of the chunked read loop and hash objects -/

theorem read_chunks_fuel_flatten (csize : Nat) (hc : 0 < csize) :
    ∀ (fuel : Nat) (content : List Nat), content.length ≤ fuel →
      (read_chunks_fuel csize fuel content).flatten = content
  | 0, content, h => by
    have : content = [] := List.eq_nil_of_length_eq_zero (Nat.le_zero.mp h)
    rw [this]
    rfl
  | fuel + 1, content, h => by
    by_cases hnil : content = []
    · rw [hnil]
      simp [read_chunks_fuel]
    · have hcond : ¬(csize = 0 ∨ content = []) := by
        simp [hnil]
        omega
      rw [read_chunks_fuel, if_neg hcond, List.flatten_cons]
      rw [read_chunks_fuel_flatten csize hc fuel (content.drop csize)
        (by simp [List.length_drop]; omega)]
      exact List.take_append_drop csize content

theorem read_chunks_join (csize : Nat) (hc : 0 < csize)
    (content : List Nat) : (read_chunks csize content).flatten = content :=
  read_chunks_fuel_flatten csize hc content.length content (Nat.le_refl _)

theorem foldl_update_acc :
    ∀ (chunks : List (List Nat)) (h0 : HashObj),
      (chunks.foldl HashObj.update h0).acc = h0.acc ++ chunks.flatten
  | [], h0 => by simp
  | c :: cs, h0 => by
    rw [List.foldl_cons, foldl_update_acc cs (h0.update c), List.flatten_cons]
    simp [HashObj.update]

/-- With a positive chunk size, the streamed full hash digests exactly the
whole file content. -/
theorem calculate_full_hash_ok {D : Type} (hs : Hasher D) (fs : FS)
    (file_path : String) (fd : FileData) (hfs : fs file_path = some fd)
    (hc : 0 < hs.chunk_size) :
    hs.calculate_full_hash fs file_path = Except.ok (hs.H fd.content) := by
  unfold Hasher.calculate_full_hash
  rw [hfs]
  have hacc := foldl_update_acc (read_chunks hs.chunk_size fd.content) HashObj.empty
  rw [read_chunks_join hs.chunk_size hc fd.content] at hacc
  simp only [HashObj.empty, List.nil_append] at hacc
  simp only [HashObj.hexdigest, HashObj.empty]
  rw [hacc]

/-! Provenance through the parallel hash runner and the collectors -/

theorem run_hashes_parallel_mem {D : Type}
    {hash_func : String → Except String D}
    {setter : FileMeta D → D → FileMeta D} {log_note : String}
    {files : List (FileMeta D)} {x : FileMeta D}
    (h : x ∈ (run_hashes_parallel hash_func setter log_note files).1) :
    ∃ w ∈ files,
      (∃ v, hash_func w.path = Except.ok v ∧ x = setter w v) ∨
      (∃ e, hash_func w.path = Except.error e ∧ x = w) := by
  rcases List.mem_map.mp h with ⟨w, hw, hwx⟩
  refine ⟨w, hw, ?_⟩
  cases hfn : hash_func w.path with
  | ok v =>
    left
    exact ⟨v, rfl, by rw [← hwx, hfn]⟩
  | error e =>
    right
    exact ⟨e, rfl, by rw [← hwx, hfn]⟩

theorem collect_size_candidates_mem {D : Type} {files : List (FileMeta D)}
    {x : FileMeta D} (h : x ∈ collect_size_candidates files) :
    x ∈ files ∧ 2 ≤ (files.filter (fun f => f.size = x.size)).length := by
  rcases List.mem_flatMap.mp h with ⟨kg, hkg, hx⟩
  rcases List.mem_filter.mp hkg with ⟨hkg', hlen⟩
  rcases group_by_key_mem_bucket hkg' hx with ⟨hkey, hmem⟩
  have hbucket := group_by_key_bucket hkg'
  refine ⟨hmem, ?_⟩
  have : kg.2 = files.filter (fun f => f.size = x.size) := by
    rw [hbucket, hkey]
  rw [← this]
  simpa using hlen

theorem collect_phash_candidates_mem {D : Type} [DecidableEq D]
    {hs : Hasher D} {fs : FS} {cands : List (FileMeta D)} {x : FileMeta D}
    (h : x ∈ collect_phash_candidates hs fs cands) :
    x.phash ≠ none ∧
    ∃ w ∈ cands,
      (∃ v, hs.calculate_phash fs w.path = Except.ok v ∧ x = set_phash w v) ∨
      (∃ e, hs.calculate_phash fs w.path = Except.error e ∧ x = w) := by
  rcases List.mem_flatMap.mp h with ⟨kg, hkg, hx⟩
  rcases List.mem_filter.mp hkg with ⟨hkg', -⟩
  rcases group_by_key_mem_bucket hkg' hx with ⟨-, hmem⟩
  rcases List.mem_filter.mp hmem with ⟨hmem', hphash⟩
  refine ⟨by simpa using hphash, run_hashes_parallel_mem hmem'⟩

theorem fd_stage3_mem {D : Type} [DecidableEq D] {grp : List (FileMeta D)}
    {g : DuplicateGroup D} (hg : g ∈ fd_stage3 grp) :
    ∃ kg ∈ (group_by_key (fun f => f.fhash)
        (grp.filter (fun f => f.fhash ≠ none))).filter
        (fun kg => decide (2 ≤ kg.2.length)),
      g = DuplicateGroup.make kg.2 none := by
  simp only [fd_stage3] at hg
  by_cases h1 : 2 ≤ (grp.filter (fun f => decide (f.fhash ≠ none))).length
  · rw [if_pos h1] at hg
    rcases List.mem_map.mp hg with ⟨kg, hkg, hgkg⟩
    exact ⟨kg, hkg, hgkg.symm⟩
  · rw [if_neg h1] at hg
    exact absurd hg (List.not_mem_nil g)

theorem fd_stage2_mem {D : Type} [DecidableEq D]
    {kg : Nat × List (FileMeta D)} {grp : List (FileMeta D)}
    (hg : grp ∈ fd_stage2 kg) :
    ∃ pg ∈ (group_by_key (fun f => f.phash)
        (kg.2.filter (fun f => f.phash ≠ none))).filter
        (fun pg => decide (2 ≤ pg.2.length)),
      grp = pg.2 := by
  simp only [fd_stage2] at hg
  by_cases h1 : 2 ≤ kg.2.length
  · rw [if_pos h1] at hg
    by_cases h2 : 2 ≤ (kg.2.filter (fun f => decide (f.phash ≠ none))).length
    · rw [if_pos h2] at hg
      rcases List.mem_map.mp hg with ⟨pg, hpg, hgpg⟩
      exact ⟨pg, hpg, hgpg.symm⟩
    · rw [if_neg h2] at hg
      exact absurd hg (List.not_mem_nil grp)
  · rw [if_neg h1] at hg
    exact absurd hg (List.not_mem_nil grp)

/-! Claim C3 -/

/-- C3: for every resolvable path, `calculate_partial_hash` hashes the
entire file content when the file size is at most `2 * chunk_size`, and
otherwise (when the backward seek works) hashes the first `chunk_size`
bytes concatenated with the last `chunk_size` bytes, the tail being the
suffix starting at offset `size - chunk_size`. -/
theorem claim_C3_phash_structure {D : Type} (hs : Hasher D) (fs : FS)
    (file_path : String) (fd : FileData) (hfs : fs file_path = some fd) :
    (fd.content.length ≤ 2 * hs.chunk_size →
      hs.calculate_phash fs file_path = Except.ok (hs.H fd.content)) ∧
    (2 * hs.chunk_size < fd.content.length → fd.seekable = true →
      hs.calculate_phash fs file_path =
        Except.ok (hs.H (fd.content.take hs.chunk_size ++
          fd.content.drop (fd.content.length - hs.chunk_size)))) := by
  constructor
  · intro hle
    simp only [Hasher.calculate_phash, hfs]
    rw [if_pos hle]
    simp [HashObj.hexdigest, HashObj.update, HashObj.empty]
  · intro hgt hseek
    simp only [Hasher.calculate_phash, hfs]
    rw [if_neg (by omega)]
    simp [hseek, HashObj.hexdigest, HashObj.update, HashObj.empty]

/-- Witness for C3 at a 3-byte file with chunk size 2 (whole-content
branch) and a 5-byte file (first+last-chunk branch). -/
theorem claim_C3_phash_structure_witness :
    c3_hs.calculate_phash c3_fs "s" = Except.ok (c3_hs.H [1, 2, 3]) ∧
    c3_hs.calculate_phash c3_fs "b" =
      Except.ok (c3_hs.H (([1, 2, 3, 4, 5] : List Nat).take 2 ++
        ([1, 2, 3, 4, 5] : List Nat).drop 3)) :=
  ⟨(claim_C3_phash_structure c3_hs c3_fs "s" ⟨[1, 2, 3], true⟩ rfl).1
      (by decide),
   (claim_C3_phash_structure c3_hs c3_fs "b" ⟨[1, 2, 3, 4, 5], true⟩ rfl).2
      (by decide) rfl⟩

/-! Claim C4 -/

/-- C4 counterexample: a 5-byte unseekable file with chunk size 2
(so the file exceeds `2 * chunk_size`).  `calculate_partial_hash` does
not fall back to streaming: the failed backward seek propagates as an
error (`OSError`) instead of producing a fingerprint. -/
theorem claim_C4_counterexample :
    c4_hs.calculate_phash c4_fs "u" =
      Except.error "Failed to read file u: seek not supported" := by
  rfl

/-- C4 amended: for a file larger than `2 * chunk_size` on which the
backward seek is unsupported, `calculate_partial_hash` propagates the
wrapped seek error to the caller; no streaming fallback exists.  (The
error is absorbed only later, at the parallel-runner boundary.) -/
theorem claim_C4_amended_seek_error_propagates {D : Type} (hs : Hasher D)
    (fs : FS) (file_path : String) (fd : FileData)
    (hfs : fs file_path = some fd)
    (hbig : 2 * hs.chunk_size < fd.content.length)
    (hseek : fd.seekable = false) :
    hs.calculate_phash fs file_path =
      Except.error ("Failed to read file " ++ file_path ++
        ": seek not supported") := by
  simp only [Hasher.calculate_phash, hfs]
  rw [if_neg (by omega)]
  simp [hseek]

/-- Witness for the amended C4 at the counterexample input. -/
theorem claim_C4_amended_witness :
    c4_hs.calculate_phash c4_fs "u" =
      Except.error ("Failed to read file " ++ "u" ++ ": seek not supported") :=
  claim_C4_amended_seek_error_propagates c4_hs c4_fs "u"
    ⟨[0, 1, 2, 3, 4], false⟩ rfl (by decide) rfl

/-! Claim C6 -/

/-- C6: for every resolvable path and every positive chunk size,
`calculate_full_hash` — which folds the file into the hash state chunk by
chunk — produces the same fingerprint as a single `update` with the whole
content, and the result is independent of the (positive) chunk size.
(The positivity assumption is the configuration-layer precondition the
spec grants the hasher: `chunk_size` is validated to be a power of two at
least 4096.) -/
theorem claim_C6_full_hash_single_update {D : Type} (hs : Hasher D)
    (fs : FS) (file_path : String) (fd : FileData)
    (hfs : fs file_path = some fd) (hc : 0 < hs.chunk_size) :
    hs.calculate_full_hash fs file_path =
      Except.ok (((HashObj.empty).update fd.content).hexdigest hs.H) ∧
    ∀ csize : Nat, 0 < csize →
      (Hasher.mk csize hs.H).calculate_full_hash fs file_path =
        hs.calculate_full_hash fs file_path := by
  constructor
  · rw [calculate_full_hash_ok hs fs file_path fd hfs hc]
    simp [HashObj.hexdigest, HashObj.update, HashObj.empty]
  · intro csize hc'
    rw [calculate_full_hash_ok hs fs file_path fd hfs hc,
      calculate_full_hash_ok (Hasher.mk csize hs.H) fs file_path fd hfs hc']

/-- Witness for C6: a 5-byte file streamed with chunk sizes 2 and 3. -/
theorem claim_C6_full_hash_single_update_witness :
    c6_hs.calculate_full_hash c6_fs "f" =
      Except.ok (((HashObj.empty).update [0, 1, 2, 3, 4]).hexdigest c6_hs.H) ∧
    (Hasher.mk 3 c6_hs.H).calculate_full_hash c6_fs "f" =
      c6_hs.calculate_full_hash c6_fs "f" :=
  ⟨(claim_C6_full_hash_single_update c6_hs c6_fs "f" ⟨[0, 1, 2, 3, 4], true⟩
      rfl (by decide)).1,
   (claim_C6_full_hash_single_update c6_hs c6_fs "f" ⟨[0, 1, 2, 3, 4], true⟩
      rfl (by decide)).2 3 (by decide)⟩

/-! Claim C10 -/

/-- C10: `Hasher._validate_hash_algorithm` rejects exactly the algorithms
that are neither `"xxhash64"` nor available in hashlib; it accepts
`"xxhash64"` unconditionally, while the validated set of `ScanConfig`
(`sha256`, `sha512`, `md5`, `sha1`) rejects `"xxhash64"`, so the 64-bit
non-cryptographic algorithm cannot be selected through a validated
`ScanConfig`. -/
theorem claim_C10_algorithm_validation (algorithms_available : List String)
    (hash_algorithm : String) :
    ((∃ e, Hasher.validate_hash_algorithm algorithms_available hash_algorithm =
        Except.error e) ↔
      (hash_algorithm ≠ "xxhash64" ∧
        hash_algorithm ∉ algorithms_available)) ∧
    Hasher.validate_hash_algorithm algorithms_available "xxhash64" =
      Except.ok () ∧
    (∃ e, ScanConfig.validate_hash_algorithm "xxhash64" = Except.error e) := by
  refine ⟨⟨?_, ?_⟩, ?_, ?_⟩
  · rintro ⟨e, he⟩
    by_cases h1 : hash_algorithm = "xxhash64"
    · simp [Hasher.validate_hash_algorithm, h1] at he
    · by_cases h2 : hash_algorithm ∈ algorithms_available
      · simp [Hasher.validate_hash_algorithm, h1, h2] at he
      · exact ⟨h1, h2⟩
  · rintro ⟨h1, h2⟩
    exact ⟨"Unsupported hash algorithm: " ++ hash_algorithm,
      by simp [Hasher.validate_hash_algorithm, h1, h2]⟩
  · simp [Hasher.validate_hash_algorithm]
  · exact ⟨"hash_algorithm must be one of: sha256, sha512, md5, sha1",
      by simp [ScanConfig.validate_hash_algorithm, SUPPORTED_HASH_ALGORITHMS]⟩

/-- Witness for C10: with a hashlib set containing only `sha256`,
`xxhash64` passes the validation of the hasher. -/
theorem claim_C10_algorithm_validation_witness :
    Hasher.validate_hash_algorithm ["sha256"] "xxhash64" = Except.ok () :=
  (claim_C10_algorithm_validation ["sha256"] "sha256").2.1

/-! Claim C5 -/

theorem run_hashes_parallel_error_mem {D : Type}
    {hash_func : String → Except String D}
    {setter : FileMeta D → D → FileMeta D} {log_note : String}
    {files : List (FileMeta D)} {fm : FileMeta D} {e : String}
    (hmem : fm ∈ files) (he : hash_func fm.path = Except.error e) :
    fm ∈ (run_hashes_parallel hash_func setter log_note files).1 ∧
    (log_note ++ " " ++ fm.path ++ ": " ++ e) ∈
      (run_hashes_parallel hash_func setter log_note files).2 :=
  ⟨List.mem_map.mpr ⟨fm, hmem, by simp [he]⟩,
   List.mem_filterMap.mpr ⟨fm, hmem, by simp [he]⟩⟩

theorem run_hashes_parallel_ok_mem {D : Type}
    {hash_func : String → Except String D}
    {setter : FileMeta D → D → FileMeta D} {log_note : String}
    {files : List (FileMeta D)} {fm : FileMeta D} {v : D}
    (hmem : fm ∈ files) (hok : hash_func fm.path = Except.ok v) :
    setter fm v ∈ (run_hashes_parallel hash_func setter log_note files).1 :=
  List.mem_map.mpr ⟨fm, hmem, by simp [hok]⟩

/-- C5: the parallel hash runners process every record of the batch
(the output batch has the same length), absorb the hashing failure of each record —
the failed record is returned unchanged, so a fingerprint that
was absent stays absent, and a warning line naming the record is logged —
and still process every other record; no per-file error escapes the run. -/
theorem claim_C5_per_file_errors_absorbed {D : Type} (hs : Hasher D)
    (fs : FS) (files : List (FileMeta D)) :
    (hs.calculate_phashes_parallel fs files).1.length = files.length ∧
    (hs.calculate_full_hashes_parallel fs files).1.length = files.length ∧
    (∀ fm ∈ files, ∀ e, hs.calculate_phash fs fm.path = Except.error e →
      fm ∈ (hs.calculate_phashes_parallel fs files).1 ∧
      ("Failed to calculate partial hash for " ++ fm.path ++ ": " ++ e) ∈
        (hs.calculate_phashes_parallel fs files).2) ∧
    (∀ fm ∈ files, ∀ v, hs.calculate_phash fs fm.path = Except.ok v →
      set_phash fm v ∈ (hs.calculate_phashes_parallel fs files).1) ∧
    (∀ fm ∈ files, ∀ e, hs.calculate_full_hash fs fm.path = Except.error e →
      fm ∈ (hs.calculate_full_hashes_parallel fs files).1 ∧
      ("Failed to calculate full hash for " ++ fm.path ++ ": " ++ e) ∈
        (hs.calculate_full_hashes_parallel fs files).2) ∧
    (∀ fm ∈ files, ∀ v, hs.calculate_full_hash fs fm.path = Except.ok v →
      set_fhash fm v ∈ (hs.calculate_full_hashes_parallel fs files).1) := by
  refine ⟨?_, ?_, ?_, ?_, ?_, ?_⟩
  · exact List.length_map files _
  · exact List.length_map files _
  · intro fm hmem e he
    exact run_hashes_parallel_error_mem hmem he
  · intro fm hmem v hok
    exact run_hashes_parallel_ok_mem hmem hok
  · intro fm hmem e he
    exact run_hashes_parallel_error_mem hmem he
  · intro fm hmem v hok
    exact run_hashes_parallel_ok_mem hmem hok

/-- Witness for C5: in a batch of one readable and one missing file, the
record of the missing file survives unchanged (fingerprint still absent) with
a warning logged, and the record of the readable file is still processed. -/
theorem claim_C5_per_file_errors_absorbed_witness :
    (c5_fmB ∈ (c5_hs.calculate_phashes_parallel c5_fs [c5_fmA, c5_fmB]).1 ∧
      ("Failed to calculate partial hash for " ++ "x" ++ ": " ++
        "File not found: x") ∈
        (c5_hs.calculate_phashes_parallel c5_fs [c5_fmA, c5_fmB]).2) ∧
    set_phash c5_fmA [1] ∈
      (c5_hs.calculate_phashes_parallel c5_fs [c5_fmA, c5_fmB]).1 :=
  ⟨(claim_C5_per_file_errors_absorbed c5_hs c5_fs [c5_fmA, c5_fmB]).2.2.1
      c5_fmB (by simp) "File not found: x" (by rfl),
   (claim_C5_per_file_errors_absorbed c5_hs c5_fs [c5_fmA, c5_fmB]).2.2.2.1
      c5_fmA (by simp) [1] (by rfl)⟩

/-! Claim C8 -/

/-- C8 counterexample: a `DuplicateGroup` constructed with a supplied
`total_size` of 999 over a single file of size 1 keeps the supplied
value — `__post_init__` only computes `total_size` when it is `None` and
never validates a supplied value, so `total_size` need not equal the sum
of the member sizes. -/
theorem claim_C8_counterexample :
    ¬ ((DuplicateGroup.make [c8_fm] (some 999)).total_size =
      ((DuplicateGroup.make [c8_fm] (some 999)).files.map
        (fun f => f.size)).sum) := by
  decide

/-- C8 amended: `total_size` equals the sum of the member sizes whenever
it is not supplied (it is then computed on construction); a supplied
value is stored without validation and may disagree.  Every group built
by the detection pipeline is constructed without a supplied `total_size`,
so pipeline outputs always satisfy the equality. -/
theorem claim_C8_amended_total_size {D : Type} [DecidableEq D]
    (hs : Hasher D) (fs : FS) (files gfiles : List (FileMeta D)) :
    (DuplicateGroup.make gfiles none).total_size =
      (gfiles.map (fun f => f.size)).sum ∧
    (∀ g ∈ (find_duplicates_optimized hs fs files).1,
      g.total_size = (g.files.map (fun f => f.size)).sum) ∧
    (∀ g ∈ find_duplicates files,
      g.total_size = (g.files.map (fun f => f.size)).sum) := by
  have hmake : ∀ l : List (FileMeta D),
      (DuplicateGroup.make l none).total_size = (l.map (fun f => f.size)).sum := by
    intro l
    simp [DuplicateGroup.make, computed_total_size]
  refine ⟨hmake gfiles, ?_, ?_⟩
  · intro g hg
    have hcases : (find_duplicates_optimized hs fs files).1 = [] ∨
        (find_duplicates_optimized hs fs files).1 =
          collect_full_hash_duplicates hs fs
            (collect_phash_candidates hs fs (collect_size_candidates files)) := by
      unfold find_duplicates_optimized
      by_cases h1 : files.isEmpty
      · simp [h1]
      · by_cases h2 : (collect_size_candidates files).isEmpty
        · simp [h1, h2]
        · by_cases h3 :
            (collect_phash_candidates hs fs (collect_size_candidates files)).isEmpty
          · simp [h1, h2, h3]
          · simp [h1, h2, h3]
    rcases hcases with hnil | heq
    · rw [hnil] at hg
      exact absurd hg (List.not_mem_nil g)
    · rw [heq] at hg
      rcases List.mem_map.mp hg with ⟨kg, -, hkg⟩
      rw [← hkg]
      exact hmake kg.2
  · intro g hg
    unfold find_duplicates at hg
    split_ifs at hg with h0
    · exact absurd hg (List.not_mem_nil g)
    · rcases List.mem_flatMap.mp hg with ⟨grp, -, hgrp⟩
      rcases fd_stage3_mem hgrp with ⟨kg, -, hkg⟩
      rw [hkg]
      exact hmake kg.2

/-- Witness for the amended C8: a group constructed without a supplied
`total_size` satisfies the sum equality, and so does the group the
pipeline produces for two identically fingerprinted size-5 records. -/
theorem claim_C8_amended_total_size_witness :
    (DuplicateGroup.make [c8_fm] none).total_size =
      (([c8_fm] : List (FileMeta Nat)).map (fun f => f.size)).sum ∧
    (DuplicateGroup.make [c8_g1, c8_g2] none).total_size =
      ((DuplicateGroup.make [c8_g1, c8_g2] none).files.map
        (fun f => f.size)).sum :=
  ⟨(claim_C8_amended_total_size c8_hs c8_fs [] [c8_fm]).1,
   (claim_C8_amended_total_size c8_hs c8_fs [c8_g1, c8_g2] []).2.2
     (DuplicateGroup.make [c8_g1, c8_g2] none) (by decide)⟩

/-! Claim C9 -/

/-- C9 counterexample: a progress sink that raises makes
`find_duplicates_optimized` raise — the source invokes the callback
unguarded, so a sink failure aborts detection instead of leaving it
unaffected (here already on the empty-input path). -/
theorem claim_C9_counterexample :
    find_duplicates_optimizedE c9_hs c9_fs c9_cb_raise [] =
      Except.error "sink failure" := rfl

/-- C9 amended: an exception raised by the progress sink propagates out
of `find_duplicates_optimized` (detection aborts); when the sink never
raises, the run completes normally and returns exactly the groups of the
callback-free run — the sink has no influence on the detection result. -/
theorem claim_C9_amended_callback {D : Type} [DecidableEq D]
    (hs : Hasher D) (fs : FS) (cb : ProgressCb) (files : List (FileMeta D))
    (hcb : ∀ s a b, cb s a b = Except.ok ()) :
    find_duplicates_optimizedE hs fs cb files =
      Except.ok (find_duplicates_optimized hs fs files).1 := by
  unfold find_duplicates_optimizedE find_duplicates_optimized
  by_cases h1 : files.isEmpty
  · simp [h1, hcb]
  · by_cases h2 : (collect_size_candidates files).isEmpty
    · simp [h1, h2, hcb]
      rfl
    · by_cases h3 :
        (collect_phash_candidates hs fs (collect_size_candidates files)).isEmpty
      · simp [h1, h2, h3, hcb]
        rfl
      · simp [h1, h2, h3, hcb]
        rfl

/-- Witness for the amended C9: with a never-raising sink the run returns
exactly the callback-free result. -/
theorem claim_C9_amended_callback_witness :
    find_duplicates_optimizedE c9_hs c9_fs c9_cb_ok [] =
      Except.ok (find_duplicates_optimized c9_hs c9_fs
        ([] : List (FileMeta Nat))).1 :=
  claim_C9_amended_callback c9_hs c9_fs c9_cb_ok [] (fun _ _ _ => rfl)

/-! Claim C1 -/

theorem pairwise_disjoint_flatMap {α β γ : Type} (mem : γ → List β)
    (L : List α) (F : α → List γ) (M : α → List β)
    (h1 : ∀ a ∈ L, ∀ g ∈ F a, ∀ x ∈ mem g, x ∈ M a)
    (h2 : L.Pairwise (fun a b => ∀ x ∈ M a, x ∉ M b))
    (h3 : ∀ a ∈ L, (F a).Pairwise (fun g1 g2 => ∀ x ∈ mem g1, x ∉ mem g2)) :
    (L.flatMap F).Pairwise (fun g1 g2 => ∀ x ∈ mem g1, x ∉ mem g2) := by
  induction L with
  | nil => simp
  | cons a L ih =>
    rw [List.flatMap_cons, List.pairwise_append]
    refine ⟨h3 a (List.mem_cons_self a L), ?_, ?_⟩
    · exact ih (fun b hb => h1 b (List.mem_cons_of_mem a hb))
        (List.Pairwise.of_cons h2)
        (fun b hb => h3 b (List.mem_cons_of_mem a hb))
    · intro g1 hg1 g2 hg2 x hx1 hx2
      rcases List.mem_flatMap.mp hg2 with ⟨b, hb, hg2b⟩
      have hMa : x ∈ M a := h1 a (List.mem_cons_self a L) g1 hg1 x hx1
      have hMb : x ∈ M b := h1 b (List.mem_cons_of_mem a hb) g2 hg2b x hx2
      exact (List.pairwise_cons.mp h2).1 b hb x hMa hMb

theorem fd_stage2_pairwise {D : Type} [DecidableEq D]
    (kg : Nat × List (FileMeta D)) :
    (fd_stage2 kg).Pairwise (fun l1 l2 => ∀ x ∈ l1, x ∉ l2) := by
  simp only [fd_stage2]
  by_cases h1 : 2 ≤ kg.2.length
  · rw [if_pos h1]
    by_cases h2 : 2 ≤ (kg.2.filter (fun f => decide (f.phash ≠ none))).length
    · rw [if_pos h2, List.pairwise_map]
      exact List.Pairwise.filter _
        (group_by_key_disjoint (fun f => f.phash) _)
    · rw [if_neg h2]
      exact List.Pairwise.nil
  · rw [if_neg h1]
    exact List.Pairwise.nil

theorem DuplicateGroup_make_files {D : Type} (files : List (FileMeta D))
    (t : Option Nat) : (DuplicateGroup.make files t).files = files := rfl

theorem fd_stage3_pairwise {D : Type} [DecidableEq D]
    (grp : List (FileMeta D)) :
    (fd_stage3 grp).Pairwise
      (fun g1 g2 => ∀ x ∈ g1.files, x ∉ g2.files) := by
  simp only [fd_stage3]
  by_cases h1 : 2 ≤ (grp.filter (fun f => decide (f.fhash ≠ none))).length
  · rw [if_pos h1, List.pairwise_map]
    refine List.Pairwise.imp ?_
      (List.Pairwise.filter _ (group_by_key_disjoint (fun f => f.fhash) _))
    intro a b hab x hx
    rw [DuplicateGroup_make_files] at hx
    rw [DuplicateGroup_make_files]
    exact hab x hx
  · rw [if_neg h1]
    exact List.Pairwise.nil

theorem collect_full_hash_duplicates_pairwise {D : Type} [DecidableEq D]
    (hs : Hasher D) (fs : FS) (cands : List (FileMeta D)) :
    (collect_full_hash_duplicates hs fs cands).Pairwise
      (fun g1 g2 => ∀ x ∈ g1.files, x ∉ g2.files) := by
  simp only [collect_full_hash_duplicates]
  rw [List.pairwise_map]
  refine List.Pairwise.imp ?_
    (List.Pairwise.filter _ (group_by_key_disjoint (fun f => f.fhash) _))
  intro a b hab x hx
  rw [DuplicateGroup_make_files] at hx
  rw [DuplicateGroup_make_files]
  exact hab x hx

theorem collect_full_hash_duplicates_length {D : Type} [DecidableEq D]
    {hs : Hasher D} {fs : FS} {cands : List (FileMeta D)}
    {g : DuplicateGroup D} (hg : g ∈ collect_full_hash_duplicates hs fs cands) :
    2 ≤ g.files.length := by
  simp only [collect_full_hash_duplicates] at hg
  rcases List.mem_map.mp hg with ⟨kg, hkg, hgkg⟩
  rcases List.mem_filter.mp hkg with ⟨-, hlen⟩
  rw [← hgkg]
  simpa using hlen

/-- The optimized pipeline either returns no groups or exactly the groups
of the full-hash collector over the staged candidate sets. -/
theorem find_duplicates_optimized_groups_cases {D : Type} [DecidableEq D]
    (hs : Hasher D) (fs : FS) (files : List (FileMeta D)) :
    (find_duplicates_optimized hs fs files).1 = [] ∨
    (find_duplicates_optimized hs fs files).1 =
      collect_full_hash_duplicates hs fs
        (collect_phash_candidates hs fs (collect_size_candidates files)) := by
  unfold find_duplicates_optimized
  by_cases h1 : files.isEmpty
  · simp [h1]
  · by_cases h2 : (collect_size_candidates files).isEmpty
    · simp [h1, h2]
    · by_cases h3 :
        (collect_phash_candidates hs fs (collect_size_candidates files)).isEmpty
      · simp [h1, h2, h3]
      · simp [h1, h2, h3]

/-- C1: in both pipelines, every returned `DuplicateGroup` has at least
two member records, and the returned groups are pairwise disjoint — no
record value is a member of two different groups of the same run. -/
theorem claim_C1_partition_invariant {D : Type} [DecidableEq D]
    (hs : Hasher D) (fs : FS) (files : List (FileMeta D)) :
    (∀ g ∈ (find_duplicates_optimized hs fs files).1, 2 ≤ g.files.length) ∧
    ((find_duplicates_optimized hs fs files).1.Pairwise
      (fun g1 g2 => ∀ x ∈ g1.files, x ∉ g2.files)) ∧
    (∀ g ∈ find_duplicates files, 2 ≤ g.files.length) ∧
    ((find_duplicates files).Pairwise
      (fun g1 g2 => ∀ x ∈ g1.files, x ∉ g2.files)) := by
  refine ⟨?_, ?_, ?_, ?_⟩
  · intro g hg
    rcases find_duplicates_optimized_groups_cases hs fs files with hnil | heq
    · rw [hnil] at hg
      exact absurd hg (List.not_mem_nil g)
    · rw [heq] at hg
      exact collect_full_hash_duplicates_length hg
  · rcases find_duplicates_optimized_groups_cases hs fs files with hnil | heq
    · rw [hnil]
      exact List.Pairwise.nil
    · rw [heq]
      exact collect_full_hash_duplicates_pairwise hs fs _
  · intro g hg
    unfold find_duplicates at hg
    split_ifs at hg with h0
    · exact absurd hg (List.not_mem_nil g)
    · rcases List.mem_flatMap.mp hg with ⟨grp, -, hgrp⟩
      rcases fd_stage3_mem hgrp with ⟨kg, hkg, hgkg⟩
      rcases List.mem_filter.mp hkg with ⟨-, hlen⟩
      rw [hgkg]
      simpa using hlen
  · unfold find_duplicates
    split_ifs with h0
    · exact List.Pairwise.nil
    · refine pairwise_disjoint_flatMap DuplicateGroup.files _ fd_stage3
        (fun grp => grp) ?_ ?_ (fun grp _ => fd_stage3_pairwise grp)
      · intro grp hgrp g hg x hx
        rcases fd_stage3_mem hg with ⟨kg, hkg, hgkg⟩
        rw [hgkg] at hx
        rcases List.mem_filter.mp hkg with ⟨hkg', -⟩
        have := (group_by_key_mem_bucket hkg' hx).2
        exact (List.mem_filter.mp this).1
      · refine pairwise_disjoint_flatMap (fun l => l) _ fd_stage2
          (fun kg => kg.2) ?_
          (group_by_key_disjoint (fun f => f.size) files)
          (fun kg _ => fd_stage2_pairwise kg)
        intro kg hkg grp hgrp x hx
        rcases fd_stage2_mem hgrp with ⟨pg, hpg, hgpg⟩
        rw [hgpg] at hx
        rcases List.mem_filter.mp hpg with ⟨hpg', -⟩
        have := (group_by_key_mem_bucket hpg' hx).2
        exact (List.mem_filter.mp this).1

/-- Witness for C1: the non-optimized pipeline over two identically
fingerprinted records yields a group of two. -/
theorem claim_C1_partition_invariant_witness :
    2 ≤ (DuplicateGroup.make [c1_g1, c1_g2] none).files.length :=
  (claim_C1_partition_invariant c1_hs c1_fs [c1_g1, c1_g2]).2.2.1
    (DuplicateGroup.make [c1_g1, c1_g2] none) (by decide)

/-! Claim C7 -/

theorem set_phash_size {D : Type} (fm : FileMeta D) (v : D) :
    (set_phash fm v).size = fm.size := rfl

/-- C7: a record whose size is unique in the input (its size bucket is a
singleton) is never handed to a hashing pass of the optimized pipeline —
the instrumentation log of hashed records excludes it; and when no size
bucket has two members, the pipeline returns no groups and performs zero
hashing calls. -/
theorem claim_C7_no_hash_on_unique_size {D : Type} [DecidableEq D]
    (hs : Hasher D) (fs : FS) (files : List (FileMeta D)) :
    (∀ r ∈ files, (files.filter (fun f => f.size = r.size)).length = 1 →
      r ∉ (find_duplicates_optimized hs fs files).2) ∧
    (collect_size_candidates files = [] →
      find_duplicates_optimized hs fs files = ([], [])) := by
  constructor
  · intro r hr hunique
    have hA : r ∉ collect_size_candidates files := by
      intro hmem
      have h2 := (collect_size_candidates_mem hmem).2
      omega
    have hB : r ∉ collect_phash_candidates hs fs (collect_size_candidates files) := by
      intro hmem
      rcases collect_phash_candidates_mem hmem with ⟨-, w, hw, hcase⟩
      have hsz : r.size = w.size := by
        rcases hcase with ⟨v, -, hrv⟩ | ⟨e, -, hrw⟩
        · rw [hrv]
          rfl
        · rw [hrw]
      have h2 := (collect_size_candidates_mem hw).2
      rw [← hsz] at h2
      omega
    unfold find_duplicates_optimized
    by_cases h1 : files.isEmpty
    · simp [h1]
    · by_cases h2 : (collect_size_candidates files).isEmpty
      · simp [h1, h2]
      · by_cases h3 :
          (collect_phash_candidates hs fs (collect_size_candidates files)).isEmpty
        · simp only [h1, h2, h3, Bool.false_eq_true, if_false, if_true,
            Bool.not_eq_true]
          simpa using hA
        · simp only [h1, h2, h3, Bool.false_eq_true, if_false]
          rw [List.mem_append]
          rintro (hc | hc)
          · exact hA hc
          · exact hB hc
  · intro hsc
    simp [find_duplicates_optimized, hsc]

/-- Witness for C7: among sizes 100, 100, 200 the size-200 record is
never hashed, and a single-record input short-circuits with no hashing. -/
theorem claim_C7_no_hash_on_unique_size_witness :
    c7_c ∉ (find_duplicates_optimized c7_hs c7_fs [c7_a, c7_b, c7_c]).2 ∧
    find_duplicates_optimized c7_hs c7_fs [c7_c] = ([], []) :=
  ⟨(claim_C7_no_hash_on_unique_size c7_hs c7_fs [c7_a, c7_b, c7_c]).1
      c7_c (by decide) (by decide),
   (claim_C7_no_hash_on_unique_size c7_hs c7_fs [c7_c]).2 (by decide)⟩

/-! Claim C2 -/

theorem set_phash_path {D : Type} (fm : FileMeta D) (v : D) :
    (set_phash fm v).path = fm.path := rfl

theorem set_fhash_path {D : Type} (fm : FileMeta D) (v : D) :
    (set_fhash fm v).path = fm.path := rfl

theorem set_phash_fhash {D : Type} (fm : FileMeta D) (v : D) :
    (set_phash fm v).fhash = fm.fhash := rfl

theorem calculate_full_hash_ok_inv {D : Type} {hs : Hasher D} {fs : FS}
    {file_path : String} {v : D} (hc : 0 < hs.chunk_size)
    (h : hs.calculate_full_hash fs file_path = Except.ok v) :
    ∃ fd, fs file_path = some fd ∧ v = hs.H fd.content := by
  cases hfd : fs file_path with
  | none =>
    unfold Hasher.calculate_full_hash at h
    rw [hfd] at h
    simp at h
  | some fd =>
    have heq := calculate_full_hash_ok hs fs file_path fd hfd hc
    rw [heq] at h
    exact ⟨fd, rfl, (Except.ok.inj h).symm⟩

theorem calculate_phash_ok_inv {D : Type} {hs : Hasher D} {fs : FS}
    {file_path : String} {v : D}
    (h : hs.calculate_phash fs file_path = Except.ok v) :
    ∃ fd, fs file_path = some fd ∧
      ((fd.content.length ≤ 2 * hs.chunk_size ∧ v = hs.H fd.content) ∨
       (2 * hs.chunk_size < fd.content.length ∧ fd.seekable = true ∧
        v = hs.H (fd.content.take hs.chunk_size ++
          fd.content.drop (fd.content.length - hs.chunk_size)))) := by
  cases hfd : fs file_path with
  | none =>
    simp only [Hasher.calculate_phash, hfd] at h
    exact absurd h (by simp)
  | some fd =>
    simp only [Hasher.calculate_phash, hfd] at h
    refine ⟨fd, rfl, ?_⟩
    by_cases hle : fd.content.length ≤ 2 * hs.chunk_size
    · rw [if_pos hle] at h
      refine Or.inl ⟨hle, ?_⟩
      have hv := (Except.ok.inj h).symm
      rw [hv]
      simp [HashObj.hexdigest, HashObj.update, HashObj.empty]
    · rw [if_neg hle] at h
      by_cases hseek : fd.seekable = true
      · rw [if_pos hseek] at h
        refine Or.inr ⟨by omega, hseek, ?_⟩
        have hv := (Except.ok.inj h).symm
        rw [hv]
        simp [HashObj.hexdigest, HashObj.update, HashObj.empty]
      · rw [if_neg hseek] at h
        simp at h

/-- Every member of a group produced by the full-hash collector on clean
input records was hashed this run: it is the original record with both
fingerprints written by successful hashing calls on its path. -/
theorem optimized_member_provenance {D : Type} [DecidableEq D]
    {hs : Hasher D} {fs : FS} {files : List (FileMeta D)}
    {g : DuplicateGroup D} {x : FileMeta D}
    (hclean : ∀ f ∈ files, f.phash = none ∧ f.fhash = none)
    (hg : g ∈ collect_full_hash_duplicates hs fs
      (collect_phash_candidates hs fs (collect_size_candidates files)))
    (hx : x ∈ g.files) :
    ∃ w ∈ files, ∃ pv v,
      hs.calculate_phash fs w.path = Except.ok pv ∧
      hs.calculate_full_hash fs w.path = Except.ok v ∧
      x = set_fhash (set_phash w pv) v := by
  simp only [collect_full_hash_duplicates] at hg
  rcases List.mem_map.mp hg with ⟨kg, hkg, hgkg⟩
  rcases List.mem_filter.mp hkg with ⟨hkg', -⟩
  rw [← hgkg, DuplicateGroup_make_files] at hx
  have hxf := (group_by_key_mem_bucket hkg' hx).2
  rcases List.mem_filter.mp hxf with ⟨hxr, hxfh⟩
  rcases run_hashes_parallel_mem hxr with ⟨u, hu, hucase⟩
  rcases collect_phash_candidates_mem hu with ⟨huph, w, hw, hwcase⟩
  have hwfiles : w ∈ files := (collect_size_candidates_mem hw).1
  have hwclean := hclean w hwfiles
  rcases hwcase with ⟨pv, hpok, hupv⟩ | ⟨e, -, huw⟩
  · subst hupv
    rcases hucase with ⟨v, hfok, hxv⟩ | ⟨e, -, hxu⟩
    · subst hxv
      exact ⟨w, hwfiles, pv, v, hpok, hfok, rfl⟩
    · subst hxu
      rw [set_phash_fhash, hwclean.2] at hxfh
      simp at hxfh
  · subst huw
    rw [hwclean.1] at huph
    simp at huph

theorem collect_full_hash_duplicates_same_key {D : Type} [DecidableEq D]
    {hs : Hasher D} {fs : FS} {cands : List (FileMeta D)}
    {g : DuplicateGroup D} (hg : g ∈ collect_full_hash_duplicates hs fs cands) :
    ∀ x ∈ g.files, ∀ y ∈ g.files, x.fhash = y.fhash := by
  simp only [collect_full_hash_duplicates] at hg
  rcases List.mem_map.mp hg with ⟨kg, hkg, hgkg⟩
  rcases List.mem_filter.mp hkg with ⟨hkg', -⟩
  intro x hx y hy
  rw [← hgkg, DuplicateGroup_make_files] at hx hy
  rw [(group_by_key_mem_bucket hkg' hx).1, (group_by_key_mem_bucket hkg' hy).1]

/-- C2 counterexample: four records entering the optimized pipeline with
preset fingerprints while every path is missing (all hashing calls fail,
so the preset fields survive).  The final grouping keys only on the full
fingerprint across all flattened candidates, producing one group that
mixes records of sizes 1 and 2 — members do not all share the same size. -/
theorem claim_C2_counterexample :
    ¬ (∀ g ∈ (find_duplicates_optimized c2_hs c2_fs
        [c2_p1, c2_p2, c2_p3, c2_p4]).1,
      ∀ x ∈ g.files, ∀ y ∈ g.files, x.size = y.size) := by
  decide

/-- C2 amended: provided the input records carry no precomputed
fingerprints, the digest function is injective (collision-free), every
`size` field of every record equals the current byte length of its file, and the
chunk size is positive, every group returned by the optimized pipeline is
homogeneous: all members share the same size, the same partial
fingerprint and the same full fingerprint. -/
theorem claim_C2_amended_group_homogeneity {D : Type} [DecidableEq D]
    (hs : Hasher D) (fs : FS) (files : List (FileMeta D))
    (hc : 0 < hs.chunk_size)
    (hclean : ∀ f ∈ files, f.phash = none ∧ f.fhash = none)
    (hinj : Function.Injective hs.H)
    (hsz : ∀ f ∈ files, ∀ fd, fs f.path = some fd →
      fd.content.length = f.size) :
    ∀ g ∈ (find_duplicates_optimized hs fs files).1,
      ∀ x ∈ g.files, ∀ y ∈ g.files,
        x.size = y.size ∧ x.phash = y.phash ∧ x.fhash = y.fhash := by
  intro g hg x hx y hy
  rcases find_duplicates_optimized_groups_cases hs fs files with hnil | heq
  · rw [hnil] at hg
    exact absurd hg (List.not_mem_nil g)
  rw [heq] at hg
  have hkey := collect_full_hash_duplicates_same_key hg x hx y hy
  rcases optimized_member_provenance hclean hg hx with
    ⟨w, hwf, pv, v, hpok, hfok, hxeq⟩
  rcases optimized_member_provenance hclean hg hy with
    ⟨w', hwf', pv', v', hpok', hfok', hyeq⟩
  subst hxeq
  subst hyeq
  have hvv : v = v' := by
    simpa [set_fhash, set_phash] using hkey
  rcases calculate_full_hash_ok_inv hc hfok with ⟨fd, hfd, hv⟩
  rcases calculate_full_hash_ok_inv hc hfok' with ⟨fd', hfd', hv'⟩
  have hcc : fd.content = fd'.content := by
    refine hinj ?_
    rw [← hv, ← hv', hvv]
  have hlen : fd.content.length = fd'.content.length := by rw [hcc]
  have hsw : fd.content.length = w.size := hsz w hwf fd hfd
  have hsw' : fd'.content.length = w'.size := hsz w' hwf' fd' hfd'
  refine ⟨?_, ?_, ?_⟩
  · show w.size = w'.size
    omega
  · show some pv = some pv'
    rcases calculate_phash_ok_inv hpok with ⟨fe, hfe, hcase⟩
    rcases calculate_phash_ok_inv hpok' with ⟨fe', hfe', hcase'⟩
    have hefd : fe = fd := by
      rw [hfd] at hfe
      exact (Option.some.inj hfe).symm
    have hefd' : fe' = fd' := by
      rw [hfd'] at hfe'
      exact (Option.some.inj hfe').symm
    subst hefd
    subst hefd'
    rcases hcase with ⟨hle, hpv⟩ | ⟨hgt, hseek, hpv⟩
    · rcases hcase' with ⟨hle', hpv'⟩ | ⟨hgt', hseek', hpv'⟩
      · rw [hpv, hpv', hcc]
      · omega
    · rcases hcase' with ⟨hle', hpv'⟩ | ⟨hgt', hseek', hpv'⟩
      · omega
      · rw [hpv, hpv', hcc]
  · show some v = some v'
    rw [hvv]

/-- Witness for the amended C2: two clean records of accurate size 3 over
an injective digest function end up in one homogeneous group. -/
theorem claim_C2_amended_group_homogeneity_witness :
    c2w_xa.size = c2w_xb.size ∧ c2w_xa.phash = c2w_xb.phash ∧
      c2w_xa.fhash = c2w_xb.fhash :=
  claim_C2_amended_group_homogeneity c2w_hs c2w_fs [c2w_a, c2w_b]
    (by decide)
    (by decide)
    (fun a b h => h)
    (by
      intro f hf fd hfd
      have h2 : some (⟨[1, 2, 3], true⟩ : FileData) = some fd := hfd
      injection h2 with h3
      subst h3
      fin_cases hf <;> rfl)
    (DuplicateGroup.make [c2w_xa, c2w_xb] none) (by decide)
    c2w_xa (by decide) c2w_xb (by decide)
